import Mathlib

/-!
Verification development for the `fsutils` library (directory statistics,
directory-manager listing/sorting/deletion, and file hashing helpers).

The Python sources are shallowly embedded:

* `src/fsutils/dir_stats.py` — `DirectoryAnalyzer.collect_minimal_dir_stats`
  and its inner `scan_dir` closure become pure Lean functions threading an
  explicit `ScanState` accumulator through a filesystem tree value.
* `src/fsutils/paths.py` — the `name` sorting branch of `DirManager.scan`,
  the recursive walk + sort of `DirManager.list_files`, and
  `DirManager.delete_dir` over an explicit tree state.
* `src/fsutils/io.py` — `get_file_hash`, with Python's `hashlib` (an external
  library, not part of this repository) modelled from the spec.

Filesystem effects are modelled by explicit tree values: an `FSEntry` is a
regular file (whose `stat` call either succeeds with a `FileStat` or fails,
i.e. `none`), a directory (whose enumeration either succeeds with a listing
or fails, i.e. `none`), a symbolic link carrying its fully resolved target
(`none` for a broken link), or an entry of any other type.  Python sorts
(`list.sort` / `sorted`) are stable; they are embedded as
`List.insertionSort`, which is stable with the same tie behaviour.
`st_mtime` / `time.time()` are modelled as integers.
-/

/-- Result of a successful `stat` call: `st_size` and `st_mtime`
(`st_mtime` modelled as an integer timestamp). -/
structure FileStat where
  st_size : Nat
  st_mtime : Int
deriving Repr, DecidableEq

/-- A filesystem tree entry, as observed by `os.scandir` / `Path.iterdir`.
`file`'s `stat` argument is `none` when the entry's `stat` call fails with
`OSError`; `dir`'s `listing` is `none` when enumerating the directory fails
with `OSError`; `symlink`'s `target` is the fully resolved object the link
points at (`none` for a broken link). -/
inductive FSEntry where
  | file (name : String) (stat : Option FileStat)
  | dir (name : String) (listing : Option (List FSEntry))
  | symlink (name : String) (target : Option FSEntry)
  | other (name : String)
deriving Repr

/-- `entry.name`: the final path component of the entry. -/
def FSEntry.name : FSEntry → String
  | .file n _ => n
  | .dir n _ => n
  | .symlink n _ => n
  | .other n => n

/-- Python `str.lower()` (ASCII range, which is what the library's
extension/name handling exercises). -/
def pyLower (s : String) : String :=
  String.mk (s.data.map Char.toLower)

/-- Python `name.startswith(".")`: the name's first character is `'.'`. -/
def startsWithDot (s : String) : Bool :=
  match s.data with
  | [] => false
  | c :: _ => c == '.'

/-- Lexicographic less-or-equal on character lists by code point — the
comparison Python uses between `str` values (as in sort keys). -/
def pyStrLeChars : List Char → List Char → Bool
  | [], _ => true
  | _ :: _, [] => false
  | c :: cs, d :: ds =>
    if c < d then true
    else if d < c then false
    else pyStrLeChars cs ds

/-- Python `a <= b` on strings: code-point lexicographic. -/
def pyStrLE (a b : String) : Bool :=
  pyStrLeChars a.data b.data

/-- `pathlib.PurePath(name).suffix`: with `i = name.rfind('.')`, returns
`name[i:]` when `0 < i < len(name) - 1` and `''` otherwise. -/
def pathSuffix (name : String) : String :=
  let cs := name.data
  match cs.reverse.findIdx? (· == '.') with
  | none => ""
  | some j =>
    let i : Nat := cs.length - 1 - j
    if 0 < i ∧ i < cs.length - 1 then String.mk (cs.drop i) else ""

/-- `collections.defaultdict(int)` update `m[k] += v`, as an association
list in insertion order: an existing key is updated in place, a new key is
appended at the end. -/
def bumpAssoc (m : List (String × Nat)) (k : String) (v : Nat) : List (String × Nat) :=
  match m with
  | [] => [(k, v)]
  | (k', v') :: rest =>
    if k' = k then (k', v' + v) :: rest else (k', v') :: bumpAssoc rest k v

/-- `sum(d.values())` for an association-list mapping. -/
def sumValues (m : List (String × Nat)) : Nat :=
  (m.map (·.2)).sum

/-- The mutable counters of `collect_minimal_dir_stats` (dir_stats.py
lines 57-79), threaded explicitly through the recursion. -/
structure ScanState where
  file_count : Nat
  directory_count : Nat
  symlink_count : Nat
  empty_directories : Nat
  zero_byte_files : Nat
  hidden_files : Nat
  hidden_directories : Nat
  errors_count : Nat
  total_size_bytes : Nat
  largest_file_size_bytes : Nat
  largest_file_path : Option (List String)
  oldest_mtime : Option Int
  newest_mtime : Option Int
  files_modified_last_30d : Nat
  extension_count : List (String × Nat)
  extension_size : List (String × Nat)
deriving Repr, DecidableEq

/-- Initial counter values (dir_stats.py lines 57-79). -/
def initScanState : ScanState :=
  { file_count := 0
    directory_count := 0
    symlink_count := 0
    empty_directories := 0
    zero_byte_files := 0
    hidden_files := 0
    hidden_directories := 0
    errors_count := 0
    total_size_bytes := 0
    largest_file_size_bytes := 0
    largest_file_path := none
    oldest_mtime := none
    newest_mtime := none
    files_modified_last_30d := 0
    extension_count := []
    extension_size := [] }

/-- The regular-file branch of `scan_dir`'s entry loop (dir_stats.py lines
114-149): count the file, flag hidden, `stat` it (failure counts an error
and skips the rest), then accumulate size, largest-file, extension buckets
and mtimes.  `entryPath` is `Path(entry.path)`; `nm` is `entry.name`. -/
def scanFileStep (now : Int) (entryPath : List String) (nm : String)
    (st : Option FileStat) (s : ScanState) : ScanState :=
  let s := { s with file_count := s.file_count + 1 }
  let s := if startsWithDot nm then { s with hidden_files := s.hidden_files + 1 } else s
  match st with
  | none => { s with errors_count := s.errors_count + 1 }
  | some stat =>
    let size := stat.st_size
    let s := { s with total_size_bytes := s.total_size_bytes + size }
    let s := if size = 0 then { s with zero_byte_files := s.zero_byte_files + 1 } else s
    let s :=
      if size > s.largest_file_size_bytes then
        { s with largest_file_size_bytes := size, largest_file_path := some entryPath }
      else s
    let sfx := pyLower (pathSuffix nm)
    let key := if sfx = "" then "<none>" else sfx
    let s := { s with extension_count := bumpAssoc s.extension_count key 1 }
    let s := { s with extension_size := bumpAssoc s.extension_size key size }
    let mt := stat.st_mtime
    let s := { s with oldest_mtime := some (match s.oldest_mtime with | none => mt | some o => min o mt) }
    let s := { s with newest_mtime := some (match s.newest_mtime with | none => mt | some o => max o mt) }
    if now - mt ≤ 30 * 86400 then
      { s with files_modified_last_30d := s.files_modified_last_30d + 1 }
    else s

mutual

/-- `scan_dir(path)` (dir_stats.py lines 88-99): enumerate the directory;
on `OSError` count an error and abandon the subtree; otherwise count the
directory, count it empty when the listing is empty, then process each
entry. -/
def scanDirListing (fsym : Bool) (now : Int) (path : List String)
    (listing : Option (List FSEntry)) (s : ScanState) : ScanState :=
  match listing with
  | none => { s with errors_count := s.errors_count + 1 }
  | some entries =>
    let s1 := { s with directory_count := s.directory_count + 1 }
    let s2 := if entries.isEmpty then { s1 with empty_directories := s1.empty_directories + 1 } else s1
    scanEntries fsym now path entries s2

/-- The `for entry in entries` loop of `scan_dir` (dir_stats.py line 100),
folding `scanEntry` over the listing in enumeration order. -/
def scanEntries (fsym : Bool) (now : Int) (path : List String)
    (es : List FSEntry) (s : ScanState) : ScanState :=
  match es with
  | [] => s
  | e :: rest => scanEntries fsym now path rest (scanEntry fsym now path e s)

/-- One iteration of `scan_dir`'s entry loop (dir_stats.py lines 100-152),
spelt out per entry kind:
* a symlink bumps `symlink_count` and, when `follow_symlinks` is false, is
  skipped (`continue` at line 105); when true it is classified as whatever
  its resolved target is (`entry.is_dir/is_file(follow_symlinks=True)`),
  with the link's own name and path used for the hidden flag, the recursion
  and the suffix, and the target's stat used for `entry.stat(...)`;
* a directory flags hidden (line 108) and recurses via `scan_dir` — note
  that `directory_count` is incremented *inside* the recursive call, only
  after that directory's own enumeration succeeds;
* a regular file runs `scanFileStep`;
* any other entry type matches neither branch and contributes nothing. -/
def scanEntry (fsym : Bool) (now : Int) (path : List String)
    (e : FSEntry) (s : ScanState) : ScanState :=
  match e with
  | .file nm st => scanFileStep now (path ++ [nm]) nm st s
  | .dir nm l =>
    let s1 := if startsWithDot nm then { s with hidden_directories := s.hidden_directories + 1 } else s
    scanDirListing fsym now (path ++ [nm]) l s1
  | .other _ => s
  | .symlink nm tgt =>
    let s1 := { s with symlink_count := s.symlink_count + 1 }
    if fsym then
      match tgt with
      | some (.dir _ l) =>
        let s2 := if startsWithDot nm then { s1 with hidden_directories := s1.hidden_directories + 1 } else s1
        scanDirListing fsym now (path ++ [nm]) l s2
      | some (.file _ st) => scanFileStep now (path ++ [nm]) nm st s1
      | _ => s1
    else s1

end

/-- The immutable snapshot produced by one scan
(`MinimalDirStats`, dir_stats.py lines 12-45). -/
structure MinimalDirStats where
  root : List String
  file_count : Nat
  directory_count : Nat
  symlink_count : Nat
  total_size_bytes : Nat
  largest_file_size_bytes : Nat
  largest_file_path : Option (List String)
  extension_count : List (String × Nat)
  extension_size : List (String × Nat)
  top_extensions_by_size : List (String × Nat)
  top_extensions_by_count : List (String × Nat)
  oldest_mtime : Option Int
  newest_mtime : Option Int
  files_modified_last_30d : Nat
  empty_directories : Nat
  zero_byte_files : Nat
  hidden_files : Nat
  hidden_directories : Nat
  errors_count : Nat
deriving Repr, DecidableEq

/-- Comparison used by `sorted(items, key=lambda kv: kv[1], reverse=True)`:
descending by the numeric value. -/
def extGE (a b : String × Nat) : Prop := b.2 ≤ a.2

instance : DecidableRel extGE := fun a b => inferInstanceAs (Decidable (b.2 ≤ a.2))

/-- `sorted(m.items(), key=lambda kv: kv[1], reverse=True)[:TOP_N]` with
`TOP_N = 5` (dir_stats.py lines 156-168).  Python's sort is stable, so it
is embedded as the stable `insertionSort`. -/
def topN (m : List (String × Nat)) : List (String × Nat) :=
  (List.insertionSort extGE m).take 5

/-- `DirectoryAnalyzer.collect_minimal_dir_stats(root, follow_symlinks=...)`
(dir_stats.py lines 49-191): run `scan_dir(root)` from zeroed counters and
assemble the snapshot.  `now` is the wall-clock time captured once at line
55; `rootListing` is the result of enumerating `root` (`none` when `root`
does not exist or cannot be read, in which case `os.scandir` raises
`OSError`, caught at line 91). -/
def collect_minimal_dir_stats (follow_symlinks : Bool) (now : Int)
    (root : List String) (rootListing : Option (List FSEntry)) : MinimalDirStats :=
  let s := scanDirListing follow_symlinks now root rootListing initScanState
  { root := root
    file_count := s.file_count
    directory_count := s.directory_count
    symlink_count := s.symlink_count
    total_size_bytes := s.total_size_bytes
    largest_file_size_bytes := s.largest_file_size_bytes
    largest_file_path := s.largest_file_path
    extension_count := s.extension_count
    extension_size := s.extension_size
    top_extensions_by_size := topN s.extension_size
    top_extensions_by_count := topN s.extension_count
    oldest_mtime := s.oldest_mtime
    newest_mtime := s.newest_mtime
    files_modified_last_30d := s.files_modified_last_30d
    empty_directories := s.empty_directories
    zero_byte_files := s.zero_byte_files
    hidden_files := s.hidden_files
    hidden_directories := s.hidden_directories
    errors_count := s.errors_count }

/-- `DirManager.display_stats(follow_symlinks=...)` (paths.py lines 494-522):
builds a `DirectoryAnalyzer`, scans `self.base_dir` and prints the formatted
report.  The method performs no existence check of its own, and
`collect_minimal_dir_stats` catches every `OSError` internally (including the
`FileNotFoundError` that `os.scandir` raises on a missing base directory), so
no exception can reach the caller: the embedding therefore always returns
`Except.ok` with the snapshot that gets formatted and printed. -/
def display_stats (follow_symlinks : Bool) (now : Int) (baseDir : List String)
    (baseListing : Option (List FSEntry)) : Except Unit MinimalDirStats :=
  Except.ok (collect_minimal_dir_stats follow_symlinks now baseDir baseListing)

/-- Ascending comparison for `decorated.sort(key=lambda x: x[0])` in
`DirManager.scan` (paths.py line 183): by the lower-cased-name key. -/
def keyLE (a b : String × String) : Prop := pyStrLE a.1 b.1 = true

instance : DecidableRel keyLE := fun a b => inferInstanceAs (Decidable (_ = true))

/-- Descending comparison for the same sort with `reverse=True`; Python's
sort is stable also in reverse mode (ties keep enumeration order). -/
def keyGE (a b : String × String) : Prop := pyStrLE b.1 a.1 = true

instance : DecidableRel keyGE := fun a b => inferInstanceAs (Decidable (_ = true))

/-- The `sort_by='name'` branch of `DirManager.scan` (paths.py lines
174-186): decorate each entry with its lower-cased final name component
(`f.name.lower()`), stable-sort by that key (descending when `reverse`),
and extract the entries.  `names` is the sequence of entry names in
`iterdir` enumeration order. -/
def scanSortByName (names : List String) (reverse : Bool) : List String :=
  let decorated := names.map (fun f => (pyLower f, f))
  let sorted :=
    if reverse then List.insertionSort keyGE decorated
    else List.insertionSort keyLE decorated
  sorted.map (·.2)

/-- Python `s.endswith(pat)` on byte-for-byte characters. -/
def pyEndsWith (s pat : String) : Bool :=
  pat.data.isSuffixOf s.data

/-- The extension filter of `DirManager.list_files` (paths.py line 226):
`not extensions or any(item.name.lower().endswith(ext.lower()) for ext in
extensions)` — an absent or empty extension list accepts everything. -/
def extFilterOk (exts : Option (List String)) (nm : String) : Bool :=
  match exts with
  | none => true
  | some [] => true
  | some l => l.any (fun ext => pyEndsWith (pyLower nm) (pyLower ext))

/-- Python `max_depth is not None and current_depth > max_depth`. -/
def depthExceeded (maxDepth : Option Nat) (depth : Nat) : Bool :=
  match maxDepth with
  | none => false
  | some m => depth > m

mutual

/-- `_walk(current_path, current_depth)` inside `DirManager.list_files`
(paths.py lines 216-233): stop when the depth guard trips; otherwise iterate
the directory's entries in enumeration order (an unreadable directory — the
`PermissionError` around the loop — contributes nothing). -/
def listFilesWalk (maxDepth : Option Nat) (exts : Option (List String))
    (dirPath : List String) (depth : Nat) (listing : Option (List FSEntry)) :
    List (List String) :=
  if depthExceeded maxDepth depth then []
  else
    match listing with
    | none => []
    | some entries => listFilesEntries maxDepth exts dirPath depth entries

/-- The `for item in current_path.iterdir()` loop of `list_files`:
`item.is_file()` (which follows symlinks) appends the path when the
extension filter accepts it; `elif item.is_dir()` (also following symlinks)
recurses one level deeper; anything else is ignored. -/
def listFilesEntries (maxDepth : Option Nat) (exts : Option (List String))
    (dirPath : List String) (depth : Nat) (es : List FSEntry) :
    List (List String) :=
  match es with
  | [] => []
  | e :: rest =>
    (match e with
     | .file nm _ => if extFilterOk exts nm then [dirPath ++ [nm]] else []
     | .symlink nm (some (.file _ _)) => if extFilterOk exts nm then [dirPath ++ [nm]] else []
     | .dir nm l => listFilesWalk maxDepth exts (dirPath ++ [nm]) (depth + 1) l
     | .symlink nm (some (.dir _ l)) => listFilesWalk maxDepth exts (dirPath ++ [nm]) (depth + 1) l
     | _ => []) ++ listFilesEntries maxDepth exts dirPath depth rest

end

/-- `x.name` of a path modelled as a component list: its final component. -/
def pathName (p : List String) : String :=
  p.getLastD ""

/-- Ascending comparison for `files.sort(key=lambda x: x.name)` in
`DirManager.list_files` (paths.py line 241): by the raw (case-sensitive)
final name component. -/
def fileNameLE (a b : List String) : Prop := pyStrLE (pathName a) (pathName b) = true

instance : DecidableRel fileNameLE := fun a b => inferInstanceAs (Decidable (_ = true))

/-- The same comparison reversed, for `reverse=True` (stable). -/
def fileNameGE (a b : List String) : Prop := pyStrLE (pathName b) (pathName a) = true

instance : DecidableRel fileNameGE := fun a b => inferInstanceAs (Decidable (_ = true))

/-- `DirManager.list_files(max_depth, extensions, sort_by='name', reverse,
relative=False)` (paths.py lines 188-250): collect files by the recursive
walk rooted at the base directory, then `files.sort(key=lambda x: x.name,
reverse=reverse)`.  `basePath`/`baseListing` are the base directory's path
and enumeration. -/
def list_files_by_name (maxDepth : Option Nat) (exts : Option (List String))
    (basePath : List String) (baseListing : Option (List FSEntry))
    (reverse : Bool) : List (List String) :=
  let files := listFilesWalk maxDepth exts basePath 0 baseListing
  if reverse then List.insertionSort fileNameGE files
  else List.insertionSort fileNameLE files

/-- The ordering claim C6 asserts for `listFiles(sortBy='name')`, stated
from the spec's words (section 4.2 `scan`: "case-insensitive lexicographic
on the entry's final name component"): the same stable sort but keyed on the
lower-cased final name component.  For comparison against
`list_files_by_name`. -/
def fileNameCiLE (a b : List String) : Prop :=
  pyStrLE (pyLower (pathName a)) (pyLower (pathName b)) = true

instance : DecidableRel fileNameCiLE :=
  fun a b => inferInstanceAs (Decidable (_ = true))

/-- The claimed (spec-side) behaviour of `listFiles(sortBy='name')`:
case-insensitive stable sort of the collected files. -/
def list_files_by_name_ci (maxDepth : Option Nat) (exts : Option (List String))
    (basePath : List String) (baseListing : Option (List FSEntry)) :
    List (List String) :=
  List.insertionSort fileNameCiLE (listFilesWalk maxDepth exts basePath 0 baseListing)

/-- Error kinds of `DirManager.delete_dir` (paths.py lines 414-417):
`FileNotFoundError`, `NotADirectoryError`, and the `OSError` that
`Path.rmdir` raises on a non-empty directory. -/
inductive DeleteError where
  | fileNotFound
  | notADirectory
  | notEmpty
deriving Repr, DecidableEq

/-- Find the entry with the given name in a listing (first match). -/
def findEntry (es : List FSEntry) (nm : String) : Option FSEntry :=
  es.find? (fun e => e.name == nm)

/-- Look up the object at `path` (a non-empty list of name components below
the base directory), descending through readable plain directories. -/
def lookupPath (es : List FSEntry) : List String → Option FSEntry
  | [] => none
  | [n] => findEntry es n
  | n :: rest =>
    match findEntry es n with
    | some (.dir _ (some l)) => lookupPath l rest
    | _ => none

/-- Remove the entry at `path` from the tree (used for both `Path.rmdir` of
an empty directory and `shutil.rmtree` of a whole subtree, which both
unlink the named entry from its parent). -/
def removePath (es : List FSEntry) : List String → List FSEntry
  | [] => es
  | [n] => es.eraseP (fun e => e.name == n)
  | n :: rest =>
    es.map (fun e =>
      match e with
      | .dir m (some l) => if m == n then .dir m (some (removePath l rest)) else e
      | _ => e)

/-- `DirManager.delete_dir(path, recursive)` (paths.py lines 407-428) over
an explicit base-directory tree (`st` is the base directory's listing;
`path` the resolved components of the target): the existence and
directory-type checks fail fast; with `recursive=True` the subtree is
removed via `shutil.rmtree`; otherwise `Path.rmdir` removes an empty
directory and raises `OSError` on a non-empty one without touching
anything.  A directory whose own listing is unavailable is modelled
conservatively as non-removable, and the model's directory check covers
plain directory entries (the claims quantify over those).  The result pairs
the outcome with the resulting tree, so error paths demonstrably leave the
tree unchanged. -/
def delete_dir (st : List FSEntry) (path : List String) (recursive : Bool) :
    Except DeleteError Unit × List FSEntry :=
  match lookupPath st path with
  | none => (.error .fileNotFound, st)
  | some (.dir _ l) =>
    if recursive then (.ok (), removePath st path)
    else
      match l with
      | some [] => (.ok (), removePath st path)
      | _ => (.error .notEmpty, st)
  | some _ => (.error .notADirectory, st)

/-- Error kinds of `get_file_hash` (io.py lines 336-350). -/
inductive HashCallError where
  | fileNotFound
  | isADirectory
  | unsupportedAlgorithm (alg : String)
deriving Repr, DecidableEq

/-- What the resolved path argument of an io helper refers to. -/
inductive PathObj where
  | missing
  | directory
  | file (content : List Nat)
deriving Repr

/-- Modelled from the spec: the set of algorithm names `hashlib.new`
accepts, with their digest sizes in bytes.  `hashlib` is the Python
standard library, external to this repository; the spec (section 6,
Hashing) names md5, sha1 and sha256 as supported examples and requires an
unsupported-algorithm failure for unknown names. -/
def hashDigestSize (alg : String) : Option Nat :=
  if alg = "md5" then some 16
  else if alg = "sha1" then some 20
  else if alg = "sha256" then some 32
  else none

/-- Modelled from the spec: the digest an algorithm of digest size `size`
computes over a byte string — an executable stand-in for the external
compression function, producing `size` bytes, each `< 256`. -/
def digestBytes (size : Nat) (data : List Nat) : List Nat :=
  (List.range size).map (fun i => (data.foldl (fun a b => (a * 31 + b) % 256) i) % 256)

/-- A `hashlib` hash object, modelled from the spec: it remembers its digest
size and the bytes fed so far; `update` appends bytes and `hexdigest`
hex-encodes (lowercase) the digest of the accumulated bytes. -/
structure HashObj where
  size : Nat
  data : List Nat
deriving Repr, DecidableEq

/-- A nibble `0..15` as a lowercase hexadecimal character. -/
def hexDigitChar (n : Nat) : Char :=
  if n < 10 then Char.ofNat (48 + n) else Char.ofNat (87 + n)

/-- Lowercase hex encoding of a byte string (`hexdigest`): two characters
per byte, high nibble first. -/
def toHexLower (bs : List Nat) : String :=
  String.mk (bs.foldr (fun b acc => hexDigitChar (b / 16 % 16) :: hexDigitChar (b % 16) :: acc) [])

/-- `hash_obj.hexdigest()`. -/
def HashObj.hexdigest (h : HashObj) : String :=
  toHexLower (digestBytes h.size h.data)

/-- The read loop of `get_file_hash` (io.py lines 352-357): read up to
`bufferSize` bytes; an empty chunk (`if not data`) ends the loop, otherwise
the chunk is fed to the hash object and the loop continues on the rest of
the file. -/
def hashReadLoop (bufferSize : Nat) (content : List Nat) (h : HashObj) : HashObj :=
  if hempty : (content.take bufferSize).isEmpty then h
  else
    hashReadLoop bufferSize (content.drop bufferSize)
      { h with data := h.data ++ content.take bufferSize }
termination_by content.length
decreasing_by
  simp only [List.isEmpty_iff, List.take_eq_nil_iff, not_or] at hempty
  have h1 : 0 < content.length := List.length_pos.mpr hempty.2
  have h2 : bufferSize ≠ 0 := hempty.1
  simp only [List.length_drop]
  omega

/-- `get_file_hash(path, algorithm, buffer_size)` (io.py lines 324-359):
existence and regular-file checks fail fast; `hashlib.new(algorithm)`
raising `ValueError` becomes the unsupported-algorithm error; otherwise the
file is read in `buffer_size` chunks and the lowercase hex digest of the
accumulated bytes is returned. -/
def get_file_hash (p : PathObj) (algorithm : String) (buffer_size : Nat) :
    Except HashCallError String :=
  match p with
  | .missing => .error .fileNotFound
  | .directory => .error .isADirectory
  | .file content =>
    match hashDigestSize algorithm with
    | none => .error (.unsupportedAlgorithm algorithm)
    | some sz => .ok (hashReadLoop buffer_size content { size := sz, data := [] }).hexdigest

mutual

/-- Specification-side count (for claim C4's amended statement): the number
of directories the scan enumerates successfully — the root listing when it
is readable, plus, recursively, every readable directory reached through
the entry walk (symlinked directories only when `fsym`).  This mirrors the
places where `scan_dir` executes its `directory_count += 1` line. -/
def countDirsListing (fsym : Bool) : Option (List FSEntry) → Nat
  | none => 0
  | some es => 1 + countDirsEntries fsym es

/-- Entry-list component of `countDirsListing`. -/
def countDirsEntries (fsym : Bool) : List FSEntry → Nat
  | [] => 0
  | e :: rest => countDirsEntry fsym e + countDirsEntries fsym rest

/-- Per-entry component of `countDirsListing`. -/
def countDirsEntry (fsym : Bool) : FSEntry → Nat
  | .dir _ l => countDirsListing fsym l
  | .symlink _ (some (.dir _ l)) => if fsym then countDirsListing fsym l else 0
  | _ => 0

end

instance : IsTotal (String × Nat) extGE :=
  ⟨fun a b => Nat.le_total b.2 a.2⟩

instance : IsTrans (String × Nat) extGE :=
  ⟨fun _ _ _ h1 h2 => Nat.le_trans h2 h1⟩

theorem sumValues_bumpAssoc (m : List (String × Nat)) (k : String) (v : Nat) :
    sumValues (bumpAssoc m k v) = sumValues m + v := by
  induction m with
  | nil => simp [bumpAssoc, sumValues]
  | cons p rest ih =>
    obtain ⟨k', v'⟩ := p
    by_cases hk : k' = k
    · simp only [bumpAssoc, if_pos hk, sumValues, List.map_cons, List.sum_cons]
      omega
    · simp only [bumpAssoc, if_neg hk, sumValues, List.map_cons, List.sum_cons] at ih ⊢
      omega

theorem scanFileStep_invC1 (now : Int) (ep : List String) (nm : String)
    (st : Option FileStat) (s : ScanState)
    (h1 : sumValues s.extension_count ≤ s.file_count)
    (h2 : s.file_count ≤ sumValues s.extension_count + s.errors_count) :
    sumValues (scanFileStep now ep nm st s).extension_count ≤
      (scanFileStep now ep nm st s).file_count ∧
    (scanFileStep now ep nm st s).file_count ≤
      sumValues (scanFileStep now ep nm st s).extension_count +
        (scanFileStep now ep nm st s).errors_count := by
  cases st with
  | none =>
    simp only [scanFileStep]
    split_ifs <;> constructor <;> (try simp) <;> omega
  | some stat =>
    simp only [scanFileStep]
    split_ifs <;> constructor <;> (try simp [sumValues_bumpAssoc]) <;> omega

mutual

theorem scanDirListing_invC1 (fsym : Bool) (now : Int) (path : List String)
    (listing : Option (List FSEntry)) (s : ScanState)
    (h1 : sumValues s.extension_count ≤ s.file_count)
    (h2 : s.file_count ≤ sumValues s.extension_count + s.errors_count) :
    sumValues (scanDirListing fsym now path listing s).extension_count ≤
      (scanDirListing fsym now path listing s).file_count ∧
    (scanDirListing fsym now path listing s).file_count ≤
      sumValues (scanDirListing fsym now path listing s).extension_count +
        (scanDirListing fsym now path listing s).errors_count := by
  cases listing with
  | none =>
    simp only [scanDirListing]
    constructor <;> (try simp) <;> omega
  | some es =>
    simp only [scanDirListing]
    split_ifs
    all_goals apply scanEntries_invC1
    all_goals (try simp)
    all_goals omega
termination_by sizeOf listing

theorem scanEntries_invC1 (fsym : Bool) (now : Int) (path : List String)
    (es : List FSEntry) (s : ScanState)
    (h1 : sumValues s.extension_count ≤ s.file_count)
    (h2 : s.file_count ≤ sumValues s.extension_count + s.errors_count) :
    sumValues (scanEntries fsym now path es s).extension_count ≤
      (scanEntries fsym now path es s).file_count ∧
    (scanEntries fsym now path es s).file_count ≤
      sumValues (scanEntries fsym now path es s).extension_count +
        (scanEntries fsym now path es s).errors_count := by
  cases es with
  | nil => simpa only [scanEntries] using ⟨h1, h2⟩
  | cons e rest =>
    simp only [scanEntries]
    have hmid := scanEntry_invC1 fsym now path e s h1 h2
    exact scanEntries_invC1 fsym now path rest _ hmid.1 hmid.2
termination_by sizeOf es

theorem scanEntry_invC1 (fsym : Bool) (now : Int) (path : List String)
    (e : FSEntry) (s : ScanState)
    (h1 : sumValues s.extension_count ≤ s.file_count)
    (h2 : s.file_count ≤ sumValues s.extension_count + s.errors_count) :
    sumValues (scanEntry fsym now path e s).extension_count ≤
      (scanEntry fsym now path e s).file_count ∧
    (scanEntry fsym now path e s).file_count ≤
      sumValues (scanEntry fsym now path e s).extension_count +
        (scanEntry fsym now path e s).errors_count := by
  cases e with
  | file nm st =>
    simpa only [scanEntry] using scanFileStep_invC1 now (path ++ [nm]) nm st s h1 h2
  | dir nm l =>
    simp only [scanEntry]
    split_ifs
    all_goals apply scanDirListing_invC1
    all_goals (try simp)
    all_goals omega
  | other nm => simpa only [scanEntry] using ⟨h1, h2⟩
  | symlink nm tgt =>
    cases fsym with
    | false =>
      simp only [scanEntry, reduceIte]
      constructor <;> (try simp) <;> omega
    | true =>
      cases tgt with
      | none =>
        simp only [scanEntry, reduceIte]
        constructor <;> (try simp) <;> omega
      | some t =>
        cases t with
        | file _ st =>
          simp only [scanEntry, reduceIte]
          apply scanFileStep_invC1 <;> (try simp) <;> omega
        | dir _ l =>
          simp only [scanEntry, reduceIte]
          split_ifs
          all_goals apply scanDirListing_invC1
          all_goals (try simp)
          all_goals omega
        | symlink _ _ =>
          simp only [scanEntry, reduceIte]
          constructor <;> (try simp) <;> omega
        | other _ =>
          simp only [scanEntry, reduceIte]
          constructor <;> (try simp) <;> omega
termination_by sizeOf e

end

/-- C1: the claimed invariant `fileCount == sum(extensionCount.values())`
fails on scans in which a file's stat call failed: here a single regular
file whose stat raises `OSError` yields `file_count = 1` while the
extension map stays empty (the `continue` at dir_stats.py line 124 skips
the extension bucketing), so the claimed equality is false at this scan. -/
theorem collect_fileCount_ne_sumExt_on_stat_error :
    (collect_minimal_dir_stats false 0 ["r"] (some [.file "a.txt" none])).file_count = 1 ∧
    (collect_minimal_dir_stats false 0 ["r"] (some [.file "a.txt" none])).extension_count = [] ∧
    ¬ (collect_minimal_dir_stats false 0 ["r"] (some [.file "a.txt" none])).file_count =
        sumValues (collect_minimal_dir_stats false 0 ["r"] (some [.file "a.txt" none])).extension_count := by
  refine ⟨?_, ?_, ?_⟩ <;>
  · simp only [collect_minimal_dir_stats, scanDirListing, scanEntries, scanEntry, scanFileStep,
      initScanState]
    decide

/-- C1 (amended): for every completed scan,
`sum(extensionCount.values()) ≤ fileCount ≤ sum(extensionCount.values()) +
errorsCount`; in particular the claimed equality holds whenever
`errorsCount = 0`, but a file whose stat call failed makes `fileCount`
exceed the sum. -/
theorem collect_fileCount_between_sumExt_and_errors (fsym : Bool) (now : Int)
    (root : List String) (listing : Option (List FSEntry)) :
    sumValues (collect_minimal_dir_stats fsym now root listing).extension_count ≤
      (collect_minimal_dir_stats fsym now root listing).file_count ∧
    (collect_minimal_dir_stats fsym now root listing).file_count ≤
      sumValues (collect_minimal_dir_stats fsym now root listing).extension_count +
        (collect_minimal_dir_stats fsym now root listing).errors_count := by
  have h := scanDirListing_invC1 fsym now root listing initScanState
    (by simp [initScanState, sumValues]) (by simp [initScanState, sumValues])
  simpa only [collect_minimal_dir_stats] using h

theorem scanFileStep_invC3 (now : Int) (ep : List String) (nm : String)
    (st : Option FileStat) (s : ScanState)
    (h : s.largest_file_path = none ↔ s.largest_file_size_bytes = 0) :
    ((scanFileStep now ep nm st s).largest_file_path = none ↔
      (scanFileStep now ep nm st s).largest_file_size_bytes = 0) := by
  cases st with
  | none =>
    simp only [scanFileStep]
    split_ifs <;> simpa using h
  | some stat =>
    simp only [scanFileStep]
    split_ifs <;> (try simpa using h) <;> simp <;> omega

mutual

theorem scanDirListing_invC3 (fsym : Bool) (now : Int) (path : List String)
    (listing : Option (List FSEntry)) (s : ScanState)
    (h : s.largest_file_path = none ↔ s.largest_file_size_bytes = 0) :
    ((scanDirListing fsym now path listing s).largest_file_path = none ↔
      (scanDirListing fsym now path listing s).largest_file_size_bytes = 0) := by
  cases listing with
  | none => simpa only [scanDirListing] using h
  | some es =>
    simp only [scanDirListing]
    split_ifs
    all_goals apply scanEntries_invC3
    all_goals simpa using h
termination_by sizeOf listing

theorem scanEntries_invC3 (fsym : Bool) (now : Int) (path : List String)
    (es : List FSEntry) (s : ScanState)
    (h : s.largest_file_path = none ↔ s.largest_file_size_bytes = 0) :
    ((scanEntries fsym now path es s).largest_file_path = none ↔
      (scanEntries fsym now path es s).largest_file_size_bytes = 0) := by
  cases es with
  | nil => simpa only [scanEntries] using h
  | cons e rest =>
    simp only [scanEntries]
    exact scanEntries_invC3 fsym now path rest _ (scanEntry_invC3 fsym now path e s h)
termination_by sizeOf es

theorem scanEntry_invC3 (fsym : Bool) (now : Int) (path : List String)
    (e : FSEntry) (s : ScanState)
    (h : s.largest_file_path = none ↔ s.largest_file_size_bytes = 0) :
    ((scanEntry fsym now path e s).largest_file_path = none ↔
      (scanEntry fsym now path e s).largest_file_size_bytes = 0) := by
  cases e with
  | file nm st =>
    simpa only [scanEntry] using scanFileStep_invC3 now (path ++ [nm]) nm st s h
  | dir nm l =>
    simp only [scanEntry]
    split_ifs
    all_goals apply scanDirListing_invC3
    all_goals simpa using h
  | other nm => simpa only [scanEntry] using h
  | symlink nm tgt =>
    cases fsym with
    | false =>
      simp only [scanEntry, reduceIte]
      simpa using h
    | true =>
      cases tgt with
      | none =>
        simp only [scanEntry, reduceIte]
        simpa using h
      | some t =>
        cases t with
        | file _ st =>
          simp only [scanEntry, reduceIte]
          apply scanFileStep_invC3
          simpa using h
        | dir _ l =>
          simp only [scanEntry, reduceIte]
          split_ifs
          all_goals apply scanDirListing_invC3
          all_goals simpa using h
        | symlink _ _ =>
          simp only [scanEntry, reduceIte]
          simpa using h
        | other _ =>
          simp only [scanEntry, reduceIte]
          simpa using h
termination_by sizeOf e

end

theorem scanFileStep_dirCount (now : Int) (ep : List String) (nm : String)
    (st : Option FileStat) (s : ScanState) :
    (scanFileStep now ep nm st s).directory_count = s.directory_count := by
  cases st with
  | none =>
    simp only [scanFileStep]
    split_ifs <;> simp
  | some stat =>
    simp only [scanFileStep]
    split_ifs <;> simp

mutual

theorem scanDirListing_dirCount (fsym : Bool) (now : Int) (path : List String)
    (listing : Option (List FSEntry)) (s : ScanState) :
    (scanDirListing fsym now path listing s).directory_count =
      s.directory_count + countDirsListing fsym listing := by
  cases listing with
  | none => simp [scanDirListing, countDirsListing]
  | some es =>
    simp only [scanDirListing, countDirsListing]
    split_ifs
    all_goals rw [scanEntries_dirCount]
    all_goals simp
    all_goals omega
termination_by sizeOf listing

theorem scanEntries_dirCount (fsym : Bool) (now : Int) (path : List String)
    (es : List FSEntry) (s : ScanState) :
    (scanEntries fsym now path es s).directory_count =
      s.directory_count + countDirsEntries fsym es := by
  cases es with
  | nil => simp [scanEntries, countDirsEntries]
  | cons e rest =>
    simp only [scanEntries, countDirsEntries]
    rw [scanEntries_dirCount, scanEntry_dirCount]
    omega
termination_by sizeOf es

theorem scanEntry_dirCount (fsym : Bool) (now : Int) (path : List String)
    (e : FSEntry) (s : ScanState) :
    (scanEntry fsym now path e s).directory_count =
      s.directory_count + countDirsEntry fsym e := by
  cases e with
  | file nm st =>
    simp only [scanEntry, countDirsEntry]
    rw [scanFileStep_dirCount]
    omega
  | dir nm l =>
    simp only [scanEntry, countDirsEntry]
    split_ifs
    all_goals rw [scanDirListing_dirCount]
    all_goals simp
  | other nm => simp [scanEntry, countDirsEntry]
  | symlink nm tgt =>
    cases fsym with
    | false =>
      cases tgt with
      | none => simp [scanEntry, countDirsEntry, reduceIte]
      | some t => cases t <;> simp [scanEntry, countDirsEntry, reduceIte]
    | true =>
      cases tgt with
      | none => simp [scanEntry, countDirsEntry, reduceIte]
      | some t =>
        cases t with
        | file _ st =>
          simp only [scanEntry, countDirsEntry, reduceIte]
          rw [scanFileStep_dirCount]
          simp
        | dir _ l =>
          simp only [scanEntry, countDirsEntry, reduceIte]
          split_ifs
          all_goals rw [scanDirListing_dirCount]
          all_goals simp
        | symlink _ _ => simp [scanEntry, countDirsEntry, reduceIte]
        | other _ => simp [scanEntry, countDirsEntry, reduceIte]
termination_by sizeOf e

end

/-- C2: `display_stats` on a base directory that no longer exists does not
raise the not-found error — contrary to its own docstring ("Raises:
FileNotFoundError: If the base directory no longer exists", paths.py lines
509-510) it hands the missing root straight to the analyzer, whose
`except OSError` at dir_stats.py line 91 swallows the `FileNotFoundError`
from `os.scandir`, and a report of an all-zero snapshot with
`errorsCount = 1` is printed. -/
theorem display_stats_missing_base_prints_report :
    display_stats false 0 ["base"] none =
      Except.ok (collect_minimal_dir_stats false 0 ["base"] none) ∧
    (collect_minimal_dir_stats false 0 ["base"] none).errors_count = 1 ∧
    (collect_minimal_dir_stats false 0 ["base"] none).file_count = 0 ∧
    (collect_minimal_dir_stats false 0 ["base"] none).directory_count = 0 := by
  refine ⟨rfl, ?_, ?_, ?_⟩ <;>
    simp only [collect_minimal_dir_stats, scanDirListing, initScanState]

/-- C3: the claim that `largestFilePath` is set whenever at least one
regular file was observed fails when every observed file has size zero:
one zero-byte file is observed (`file_count = 1`) yet `largestFilePath`
stays unset, because the update at dir_stats.py line 132 requires
`size > largest_file_size_bytes`, which `0 > 0` never satisfies. -/
theorem collect_largestFilePath_none_on_zero_size_file :
    (collect_minimal_dir_stats false 0 ["r"]
      (some [.file "a.txt" (some ⟨0, 7⟩)])).file_count = 1 ∧
    (collect_minimal_dir_stats false 0 ["r"]
      (some [.file "a.txt" (some ⟨0, 7⟩)])).largest_file_path = none := by
  constructor <;>
  · simp only [collect_minimal_dir_stats, scanDirListing, scanEntries, scanEntry, scanFileStep,
      initScanState]
    decide

/-- C3 (amended): for every completed scan, `largestFilePath` is set if and
only if `largestFileSizeBytes > 0` — that is, iff some observed file was
successfully stat'ed with a nonzero size; a scan all of whose observed
files have size 0 leaves it unset. -/
theorem collect_largestFilePath_isSome_iff_pos_size (fsym : Bool) (now : Int)
    (root : List String) (listing : Option (List FSEntry)) :
    (¬ (collect_minimal_dir_stats fsym now root listing).largest_file_path = none ↔
      0 < (collect_minimal_dir_stats fsym now root listing).largest_file_size_bytes) := by
  have h := scanDirListing_invC3 fsym now root listing initScanState (by simp [initScanState])
  simp only [collect_minimal_dir_stats]
  constructor
  · intro hne
    rcases Nat.eq_zero_or_pos (scanDirListing fsym now root listing initScanState).largest_file_size_bytes with h0 | h0
    · exact absurd (h.mpr h0) hne
    · exact h0
  · intro hpos hcon
    have := h.mp hcon
    omega

/-- C4: a directory entry whose own enumeration fails does not contribute
to `directoryCount`: scanning a root containing a single unreadable
subdirectory yields `directory_count = 1` (the root alone) and
`errors_count = 1`, while the claim as stated predicts `directory_count =
2` (root plus the unreadable entry). -/
theorem collect_dirCount_skips_unreadable_dir :
    (collect_minimal_dir_stats false 0 ["r"] (some [.dir "d" none])).directory_count = 1 ∧
    (collect_minimal_dir_stats false 0 ["r"] (some [.dir "d" none])).errors_count = 1 ∧
    ¬ (collect_minimal_dir_stats false 0 ["r"] (some [.dir "d" none])).directory_count = 2 := by
  refine ⟨?_, ?_, ?_⟩ <;>
  · simp only [collect_minimal_dir_stats, scanDirListing, scanEntries, scanEntry,
      initScanState]
    decide

/-- C4 (amended): an entry classified as a directory updates
`hiddenDirectories` before recursion, but `directoryCount` is incremented
inside the recursive call, only once that directory's own enumeration
succeeds: an entry whose enumeration fails adds exactly one to
`errorsCount`, leaves every other counter (in particular `directoryCount`)
unchanged apart from the hidden flag, and its subtree is abandoned; over a
whole scan `directoryCount` equals the number of successfully enumerated
directories (`countDirsListing`). -/
theorem scan_directoryCount_counts_enumerated_dirs :
    (∀ (fsym : Bool) (now : Int) (path : List String) (nm : String) (s : ScanState),
      scanEntry fsym now path (.dir nm none) s =
        { s with
            hidden_directories := s.hidden_directories + (if startsWithDot nm then 1 else 0),
            errors_count := s.errors_count + 1 }) ∧
    (∀ (fsym : Bool) (now : Int) (root : List String) (listing : Option (List FSEntry)),
      (collect_minimal_dir_stats fsym now root listing).directory_count =
        countDirsListing fsym listing) := by
  constructor
  · intro fsym now path nm s
    simp only [scanEntry, scanDirListing]
    split_ifs <;> simp
  · intro fsym now root listing
    simp only [collect_minimal_dir_stats]
    rw [scanDirListing_dirCount]
    simp [initScanState]

theorem orderedInsert_extGE_filter (x : String × Nat) (l : List (String × Nat)) (v : Nat) :
    (l.orderedInsert extGE x).filter (fun a => a.2 == v) =
      ((x :: l).filter (fun a => a.2 == v)) := by
  induction l with
  | nil => simp
  | cons y ys ih =>
    by_cases hr : extGE x y
    · simp [List.orderedInsert, hr]
    · have hlt : x.2 < y.2 := by
        simpa [extGE, Nat.not_le] using hr
      simp only [List.orderedInsert, if_neg hr]
      by_cases hy : y.2 = v
      · have hx : ¬ x.2 = v := by omega
        simp [List.filter_cons, hy, hx, ih]
      · by_cases hx : x.2 = v
        · simp [List.filter_cons, hy, hx, ih]
        · simp [List.filter_cons, hy, hx, ih]

theorem insertionSort_extGE_filter (l : List (String × Nat)) (v : Nat) :
    (List.insertionSort extGE l).filter (fun a => a.2 == v) =
      l.filter (fun a => a.2 == v) := by
  induction l with
  | nil => simp
  | cons x xs ih =>
    simp only [List.insertionSort]
    rw [orderedInsert_extGE_filter]
    simp only [List.filter_cons]
    rw [ih]

theorem topN_length (m : List (String × Nat)) : (topN m).length ≤ 5 := by
  simp only [topN, List.length_take]
  omega

theorem topN_sorted (m : List (String × Nat)) : (topN m).Pairwise extGE := by
  have hs : (List.insertionSort extGE m).Pairwise extGE :=
    List.sorted_insertionSort extGE m
  exact hs.sublist (List.take_sublist 5 _)

theorem topN_stable (m : List (String × Nat)) (v : Nat) :
    ∃ rest, m.filter (fun a => a.2 == v) = (topN m).filter (fun a => a.2 == v) ++ rest := by
  refine ⟨((List.insertionSort extGE m).drop 5).filter (fun a => a.2 == v), ?_⟩
  rw [← insertionSort_extGE_filter m v]
  conv_lhs => rw [← List.take_append_drop 5 (List.insertionSort extGE m)]
  rw [List.filter_append]
  rfl

/-- C7: for every completed scan, `topExtensionsByCount` and
`topExtensionsBySize` each have length at most 5, are sorted non-increasing
by their value (`extGE`), and break ties between equal values by the
insertion order of the underlying extension map: the equal-valued entries
of each top list are an initial segment, in order, of the equal-valued
entries of the corresponding map. -/
theorem collect_topExtensions_top5_sorted_stable (fsym : Bool) (now : Int)
    (root : List String) (listing : Option (List FSEntry)) :
    ((collect_minimal_dir_stats fsym now root listing).top_extensions_by_count.length ≤ 5 ∧
     (collect_minimal_dir_stats fsym now root listing).top_extensions_by_count.Pairwise extGE ∧
     ∀ v, ∃ rest,
       (collect_minimal_dir_stats fsym now root listing).extension_count.filter (fun a => a.2 == v) =
         (collect_minimal_dir_stats fsym now root listing).top_extensions_by_count.filter
           (fun a => a.2 == v) ++ rest) ∧
    ((collect_minimal_dir_stats fsym now root listing).top_extensions_by_size.length ≤ 5 ∧
     (collect_minimal_dir_stats fsym now root listing).top_extensions_by_size.Pairwise extGE ∧
     ∀ v, ∃ rest,
       (collect_minimal_dir_stats fsym now root listing).extension_size.filter (fun a => a.2 == v) =
         (collect_minimal_dir_stats fsym now root listing).top_extensions_by_size.filter
           (fun a => a.2 == v) ++ rest) := by
  simp only [collect_minimal_dir_stats]
  exact ⟨⟨topN_length _, topN_sorted _, fun v => topN_stable _ v⟩,
         ⟨topN_length _, topN_sorted _, fun v => topN_stable _ v⟩⟩

theorem pyStrLeChars_total (a b : List Char) :
    pyStrLeChars a b = true ∨ pyStrLeChars b a = true := by
  induction a generalizing b with
  | nil => left; simp [pyStrLeChars]
  | cons c cs ih =>
    cases b with
    | nil => right; simp [pyStrLeChars]
    | cons d ds =>
      by_cases h1 : c < d
      · left; simp [pyStrLeChars, h1]
      · by_cases h2 : d < c
        · right; simp [pyStrLeChars, h1, h2]
        · simpa [pyStrLeChars, h1, h2] using ih ds

theorem pyStrLeChars_trans (a b c : List Char) (hab : pyStrLeChars a b = true)
    (hbc : pyStrLeChars b c = true) : pyStrLeChars a c = true := by
  induction a generalizing b c with
  | nil => simp [pyStrLeChars]
  | cons x xs ih =>
    cases b with
    | nil => simp [pyStrLeChars] at hab
    | cons y ys =>
      cases c with
      | nil => simp [pyStrLeChars] at hbc
      | cons z zs =>
        by_cases hxy : x < y
        · by_cases hyz : y < z
          · simp [pyStrLeChars, lt_trans hxy hyz]
          · by_cases hzy : z < y
            · simp [pyStrLeChars, hyz, hzy] at hbc
            · have hyzeq : y = z := le_antisymm (not_lt.mp hzy) (not_lt.mp hyz)
              simp [pyStrLeChars, hyzeq ▸ hxy]
        · by_cases hyx : y < x
          · simp [pyStrLeChars, hxy, hyx] at hab
          · have hxyeq : x = y := le_antisymm (not_lt.mp hyx) (not_lt.mp hxy)
            by_cases hyz : y < z
            · simp [pyStrLeChars, hxyeq ▸ hyz]
            · by_cases hzy : z < y
              · simp [pyStrLeChars, hyz, hzy] at hbc
              · have hyzeq : y = z := le_antisymm (not_lt.mp hzy) (not_lt.mp hyz)
                have hxz : ¬ x < z := by rw [hxyeq, hyzeq]; exact lt_irrefl _
                have hzx : ¬ z < x := by rw [hxyeq, hyzeq]; exact lt_irrefl _
                simp only [pyStrLeChars, if_neg hxy, if_neg hyx, if_neg hyz, if_neg hzy,
                  if_neg hxz, if_neg hzx] at hab hbc ⊢
                exact ih ys zs hab hbc

theorem pyStrLeChars_antisymm (a b : List Char) (hab : pyStrLeChars a b = true)
    (hba : pyStrLeChars b a = true) : a = b := by
  induction a generalizing b with
  | nil =>
    cases b with
    | nil => rfl
    | cons d ds => simp [pyStrLeChars] at hba
  | cons c cs ih =>
    cases b with
    | nil => simp [pyStrLeChars] at hab
    | cons d ds =>
      by_cases h1 : c < d
      · simp [pyStrLeChars, h1, lt_asymm h1] at hba
      · by_cases h2 : d < c
        · simp [pyStrLeChars, h1, h2] at hab
        · have hcd : c = d := le_antisymm (not_lt.mp h2) (not_lt.mp h1)
          simp only [pyStrLeChars, if_neg h1, if_neg h2] at hab hba
          rw [hcd, ih ds hab hba]

example : scanSortByName ["A", "a"] true = ["A", "a"] := by decide
example : scanSortByName ["A", "a"] false = ["A", "a"] := by decide

theorem insertionSort_keyGE_eq_reverse_keyLE (d : List (String × String))
    (hkeys : (d.map (·.1)).Nodup) :
    List.insertionSort keyGE d = (List.insertionSort keyLE d).reverse := by
  haveI : IsTotal (String × String) keyGE := ⟨fun a b => pyStrLeChars_total b.1.data a.1.data⟩
  haveI : IsTrans (String × String) keyGE :=
    ⟨fun a b c h1 h2 => pyStrLeChars_trans c.1.data b.1.data a.1.data h2 h1⟩
  haveI : IsTotal (String × String) keyLE := ⟨fun a b => pyStrLeChars_total a.1.data b.1.data⟩
  haveI : IsTrans (String × String) keyLE :=
    ⟨fun a b c h1 h2 => pyStrLeChars_trans a.1.data b.1.data c.1.data h1 h2⟩
  haveI : IsAntisymm (String × String)
      (fun a b : String × String => keyGE a b ∧ a.1 ≠ b.1) := by
    refine ⟨fun a b h1 h2 => absurd ?_ h1.2⟩
    have := pyStrLeChars_antisymm a.1.data b.1.data h2.1 h1.1
    exact congrArg String.mk this
  have hperm1 : List.Perm (List.insertionSort keyGE d) d := List.perm_insertionSort keyGE d
  have hperm2 : List.Perm (List.insertionSort keyLE d) d := List.perm_insertionSort keyLE d
  have hne1 : (List.insertionSort keyGE d).Pairwise (fun a b => a.1 ≠ b.1) := by
    have hnd : ((List.insertionSort keyGE d).map (fun p : String × String => p.1)).Nodup :=
      ((hperm1.map (fun p : String × String => p.1)).nodup_iff).mpr hkeys
    exact List.pairwise_map.mp hnd
  have hne2 : ((List.insertionSort keyLE d).reverse).Pairwise (fun a b => a.1 ≠ b.1) := by
    have hp : List.Perm (((List.insertionSort keyLE d).reverse).map (fun p : String × String => p.1))
        (d.map (fun p : String × String => p.1)) :=
      ((List.reverse_perm _).trans hperm2).map (fun p : String × String => p.1)
    exact List.pairwise_map.mp (hp.nodup_iff.mpr hkeys)
  have hsorted1 : (List.insertionSort keyGE d).Pairwise
      (fun a b : String × String => keyGE a b ∧ a.1 ≠ b.1) :=
    (List.sorted_insertionSort keyGE d).and hne1
  have hsorted2 : ((List.insertionSort keyLE d).reverse).Pairwise
      (fun a b : String × String => keyGE a b ∧ a.1 ≠ b.1) := by
    refine List.Pairwise.and ?_ hne2
    exact List.pairwise_reverse.mpr (List.sorted_insertionSort keyLE d)
  exact List.eq_of_perm_of_sorted
    (hperm1.trans (hperm2.symm.trans (List.reverse_perm _).symm)) hsorted1 hsorted2

/-- C5: `scan(sortBy='name', reverse=True)` is not the exact reverse of
`scan(sortBy='name')` when two entries share the same lower-cased name:
for enumeration order `["A", "a"]` (both keys `"a"`), both the forward and
the reversed sort keep the stable order `["A", "a"]` (Python's sort keeps
ties in enumeration order even with `reverse=True`), whereas the reversal
of the forward output is `["a", "A"]`. -/
theorem scanSortByName_reverse_ne_on_ties :
    scanSortByName ["A", "a"] true ≠ (scanSortByName ["A", "a"] false).reverse := by
  decide

/-- C5 (amended): when no two entries share the same lower-cased name,
`scan(sortBy='name', reverse=True)` returns exactly the reverse of
`scan(sortBy='name')`; with equal lower-cased names both outputs keep the
tied entries in enumeration order (stable sort), so the reversed-flag
output is not the reversal of the forward one. -/
theorem scanSortByName_reverse_eq_of_nodup_keys (names : List String)
    (hnd : (names.map pyLower).Nodup) :
    scanSortByName names true = (scanSortByName names false).reverse := by
  have h1 : scanSortByName names true =
      (List.insertionSort keyGE (names.map fun f => (pyLower f, f))).map (·.2) := rfl
  have h2 : scanSortByName names false =
      (List.insertionSort keyLE (names.map fun f => (pyLower f, f))).map (·.2) := rfl
  rw [h1, h2, ← List.map_reverse]
  rw [insertionSort_keyGE_eq_reverse_keyLE]
  simpa [List.map_map, Function.comp] using hnd

theorem scanSortByName_reverse_eq_of_nodup_keys_witness :
    ((["b.txt", "a.txt"] : List String).map pyLower).Nodup ∧
    scanSortByName ["b.txt", "a.txt"] true = (scanSortByName ["b.txt", "a.txt"] false).reverse :=
  ⟨by decide, scanSortByName_reverse_eq_of_nodup_keys ["b.txt", "a.txt"] (by decide)⟩

/-- C6: `listFiles(sortBy='name')` does not sort case-insensitively as the
claim (and `scan`'s contract) requires: `files.sort(key=lambda x: x.name)`
at paths.py line 241 uses the raw name, so `B.txt` sorts before `a.txt`
(`'B' < 'a'` by code point), while the case-insensitive contract
(`list_files_by_name_ci`) puts `a.txt` first. -/
theorem list_files_by_name_ne_ci_on_case :
    list_files_by_name none none []
        (some [.file "B.txt" (some ⟨1, 0⟩), .file "a.txt" (some ⟨1, 0⟩)]) false =
      [["B.txt"], ["a.txt"]] ∧
    list_files_by_name_ci none none []
        (some [.file "B.txt" (some ⟨1, 0⟩), .file "a.txt" (some ⟨1, 0⟩)]) =
      [["a.txt"], ["B.txt"]] ∧
    list_files_by_name none none []
        (some [.file "B.txt" (some ⟨1, 0⟩), .file "a.txt" (some ⟨1, 0⟩)]) false ≠
      list_files_by_name_ci none none []
        (some [.file "B.txt" (some ⟨1, 0⟩), .file "a.txt" (some ⟨1, 0⟩)]) := by
  refine ⟨?_, ?_, ?_⟩ <;>
  · simp only [list_files_by_name, list_files_by_name_ci, listFilesWalk, listFilesEntries,
      depthExceeded, extFilterOk]
    decide

/-- C6 (amended): `listFiles(sortBy='name')` stable-sorts the collected
files by the raw, case-sensitive final name component (`fileNameLE`), not
case-insensitively: the sorted output is a permutation of the unsorted walk
and is pairwise ordered by `fileNameLE`. -/
theorem list_files_by_name_sorted_case_sensitive (maxDepth : Option Nat)
    (exts : Option (List String)) (basePath : List String)
    (baseListing : Option (List FSEntry)) :
    List.Perm (list_files_by_name maxDepth exts basePath baseListing false)
      (listFilesWalk maxDepth exts basePath 0 baseListing) ∧
    (list_files_by_name maxDepth exts basePath baseListing false).Pairwise fileNameLE := by
  haveI : IsTotal (List String) fileNameLE :=
    ⟨fun a b => pyStrLeChars_total (pathName a).data (pathName b).data⟩
  haveI : IsTrans (List String) fileNameLE :=
    ⟨fun a b c h1 h2 =>
      pyStrLeChars_trans (pathName a).data (pathName b).data (pathName c).data h1 h2⟩
  exact ⟨List.perm_insertionSort fileNameLE _, List.sorted_insertionSort fileNameLE _⟩

/-- C8: deleting an existing directory that has at least one entry with
`recursive=False` fails with the non-empty-directory error (`Path.rmdir`
raising `OSError`) and returns the base tree unchanged — no partial
deletion happens on the error path, since the only mutating call in
`delete_dir` with `recursive=False` is the final `rmdir` itself. -/
theorem delete_dir_nonempty_fails_unchanged (st : List FSEntry) (path : List String)
    (nm : String) (e : FSEntry) (rest : List FSEntry)
    (h : lookupPath st path = some (.dir nm (some (e :: rest)))) :
    delete_dir st path false = (.error .notEmpty, st) := by
  simp [delete_dir, h]

theorem delete_dir_nonempty_fails_unchanged_witness :
    lookupPath [.dir "d" (some [.file "f" (some ⟨1, 0⟩)])] ["d"] =
      some (.dir "d" (some [.file "f" (some ⟨1, 0⟩)])) ∧
    delete_dir [.dir "d" (some [.file "f" (some ⟨1, 0⟩)])] ["d"] false =
      (.error .notEmpty, [.dir "d" (some [.file "f" (some ⟨1, 0⟩)])]) :=
  ⟨rfl, delete_dir_nonempty_fails_unchanged _ ["d"] "d" _ _ rfl⟩

theorem hashReadLoop_zero (content : List Nat) (h : HashObj) :
    hashReadLoop 0 content h = h := by
  simp [hashReadLoop]

theorem hashReadLoop_eq (bs : Nat) : ∀ (content : List Nat) (h : HashObj), 0 < bs →
    hashReadLoop bs content h = ⟨h.size, h.data ++ content⟩ := by
  intro content h
  induction content, h using hashReadLoop.induct bs with
  | case1 content h hemp =>
    intro hbs
    have hnil : content = [] := by
      rcases List.take_eq_nil_iff.mp (List.isEmpty_iff.mp hemp) with h0 | h0
      · omega
      · exact h0
    subst hnil
    simp [hashReadLoop]
  | case2 content h hemp ih =>
    intro hbs
    rw [hashReadLoop]
    simp only [hemp, dite_false]
    rw [ih hbs]
    simp [List.take_append_drop]

theorem hexChars_length (bs : List Nat) :
    (bs.foldr (fun b acc => hexDigitChar (b / 16 % 16) :: hexDigitChar (b % 16) :: acc)
      []).length = 2 * bs.length := by
  induction bs with
  | nil => rfl
  | cons b tl ih =>
    simp only [List.foldr, List.length_cons, ih, List.length]
    omega

theorem toHexLower_length (bs : List Nat) : (toHexLower bs).length = 2 * bs.length := by
  have h : (toHexLower bs).length =
      (bs.foldr (fun b acc => hexDigitChar (b / 16 % 16) :: hexDigitChar (b % 16) :: acc)
        []).length := rfl
  rw [h, hexChars_length]

theorem hexDigitChar_mem (n : Nat) (hn : n < 16) :
    hexDigitChar n ∈ ("0123456789abcdef".data) := by
  have hall : ∀ m : Fin 16, hexDigitChar m.val ∈ ("0123456789abcdef".data) := by decide
  exact hall ⟨n, hn⟩

theorem hexFoldr_chars (bs : List Nat) :
    ∀ c ∈ bs.foldr (fun b acc => hexDigitChar (b / 16 % 16) :: hexDigitChar (b % 16) :: acc) [],
      c ∈ "0123456789abcdef".data := by
  induction bs with
  | nil => intro c hc; simp at hc
  | cons b tl ih =>
    intro c hc
    simp only [List.foldr, List.mem_cons] at hc
    rcases hc with hc | hc | hc
    · exact hc ▸ hexDigitChar_mem _ (Nat.mod_lt _ (by omega))
    · exact hc ▸ hexDigitChar_mem _ (Nat.mod_lt _ (by omega))
    · exact ih c hc

theorem toHexLower_chars (bs : List Nat) :
    ∀ c ∈ (toHexLower bs).data, c ∈ "0123456789abcdef".data := by
  have h : (toHexLower bs).data =
      bs.foldr (fun b acc => hexDigitChar (b / 16 % 16) :: hexDigitChar (b % 16) :: acc) [] := rfl
  rw [h]
  exact hexFoldr_chars bs

theorem digestBytes_length (sz : Nat) (data : List Nat) :
    (digestBytes sz data).length = sz := by
  simp [digestBytes]

/-- C9: for an existing regular file, `get_file_hash` with an algorithm
name unknown to the hash provider fails with the unsupported-algorithm
error (`ValueError` re-raised at io.py line 350) and with `sha256`
(and any positive buffer size, such as the 64 KiB default) returns the
lowercase hex digest of the file's bytes: a string of length
`2 * 32 = 64` all of whose characters are lowercase hex digits. -/
theorem get_file_hash_unknown_error_sha256_hex (content : List Nat) (alg : String)
    (bs : Nat) (halg : hashDigestSize alg = none) (hbs : 0 < bs) :
    get_file_hash (.file content) alg bs = .error (.unsupportedAlgorithm alg) ∧
    get_file_hash (.file content) "sha256" bs = .ok (toHexLower (digestBytes 32 content)) ∧
    (toHexLower (digestBytes 32 content)).length = 64 ∧
    ∀ c ∈ (toHexLower (digestBytes 32 content)).data, c ∈ "0123456789abcdef".data := by
  refine ⟨?_, ?_, ?_, ?_⟩
  · simp [get_file_hash, halg]
  · have hsz : hashDigestSize "sha256" = some 32 := by decide
    simp only [get_file_hash, hsz]
    rw [hashReadLoop_eq bs content ⟨32, []⟩ hbs]
    rfl
  · rw [toHexLower_length, digestBytes_length]
  · exact toHexLower_chars _

theorem get_file_hash_unknown_error_sha256_hex_witness :
    hashDigestSize "crc32" = none ∧ 0 < 65536 ∧
    (get_file_hash (.file [99, 111, 110, 116, 101, 110, 116]) "crc32" 65536 =
        .error (.unsupportedAlgorithm "crc32") ∧
      get_file_hash (.file [99, 111, 110, 116, 101, 110, 116]) "sha256" 65536 =
        .ok (toHexLower (digestBytes 32 [99, 111, 110, 116, 101, 110, 116])) ∧
      (toHexLower (digestBytes 32 [99, 111, 110, 116, 101, 110, 116])).length = 64 ∧
      ∀ c ∈ (toHexLower (digestBytes 32 [99, 111, 110, 116, 101, 110, 116])).data,
        c ∈ "0123456789abcdef".data) :=
  ⟨by decide, by decide,
    get_file_hash_unknown_error_sha256_hex [99, 111, 110, 116, 101, 110, 116] "crc32" 65536
      (by decide) (by decide)⟩

/-- C10: `get_file_hash` with `buffer_size = 0` terminates and returns the
digest of the empty byte string, whatever the file's contents: `f.read(0)`
returns an empty chunk, so `if not data: break` exits the loop on the
first iteration with nothing fed to the hash object — the result equals
hashing an empty file with a normal buffer size. -/
theorem get_file_hash_zero_buffer_empty_digest (content : List Nat) (alg : String)
    (sz : Nat) (halg : hashDigestSize alg = some sz) :
    get_file_hash (.file content) alg 0 = .ok (toHexLower (digestBytes sz [])) ∧
    get_file_hash (.file content) alg 0 = get_file_hash (.file []) alg 1 := by
  have h0 : get_file_hash (.file content) alg 0 = .ok (toHexLower (digestBytes sz [])) := by
    simp only [get_file_hash, halg]
    rw [hashReadLoop_zero]
    rfl
  refine ⟨h0, ?_⟩
  rw [h0]
  simp only [get_file_hash, halg]
  rw [hashReadLoop_eq 1 [] ⟨sz, []⟩ (by omega)]
  rfl

theorem get_file_hash_zero_buffer_empty_digest_witness :
    hashDigestSize "sha256" = some 32 ∧
    (get_file_hash (.file [7, 8, 9]) "sha256" 0 = .ok (toHexLower (digestBytes 32 [])) ∧
      get_file_hash (.file [7, 8, 9]) "sha256" 0 = get_file_hash (.file []) "sha256" 1) :=
  ⟨by decide, get_file_hash_zero_buffer_empty_digest [7, 8, 9] "sha256" 32 (by decide)⟩
